import Mathlib

/-!
Verification of the Woodeye worktree viewer against its specification.

The repository ships the Svelte/TypeScript frontend (`src/lib/types.ts`,
`App.svelte`, `CreateWorktreeDialog.svelte`, the worktree dropdown and
`CommitList.svelte`); the Rust backend behind the Tauri `invoke` calls
(`get_worktree_status`, `get_commit_history`, `delete_worktree`,
`create_worktree` validation, the filesystem watcher) is not part of the
sources.  Frontend functions are embedded directly from the TypeScript;
backend operations are modelled from the specification, each such
definition marked `Modelled from the spec:` in its doc comment.
-/

namespace Woodeye

/-- `HeadInfo` from `src/lib/types.ts`: `branch` is null on a detached HEAD. -/
structure HeadInfo where
  branch : Option String
  commit_sha : String
  commit_message : String
deriving Repr, DecidableEq

/-- `WorktreeStatus` from `src/lib/types.ts`: `is_clean` plus the four counts. -/
structure WorktreeStatus where
  is_clean : Bool
  modified : Nat
  staged : Nat
  untracked : Nat
  conflicted : Nat
deriving Repr, DecidableEq

/-- `Worktree` from `src/lib/types.ts`; `status` is null until lazily loaded. -/
structure Worktree where
  path : String
  name : String
  is_main : Bool
  head : HeadInfo
  status : Option WorktreeStatus
  last_commit_timestamp : Nat
deriving Repr, DecidableEq

/-- `CommitInfo` from `src/lib/types.ts`. -/
structure CommitInfo where
  hash : String
  short_hash : String
  author_name : String
  author_email : String
  timestamp : Nat
  message : String
  summary : String
deriving Repr, DecidableEq

/-- `CreateWorktreeOptions` from `src/lib/types.ts`: nullable `new_branch` /
`commit_ish` plus the `detach` flag. -/
structure CreateWorktreeOptions where
  path : String
  new_branch : Option String
  commit_ish : Option String
  detach : Bool
deriving Repr, DecidableEq

/-- Error taxonomy of the spec (§7). -/
inductive WtError where
  | RepoNotFound
  | WorktreeNotFound
  | CommitNotFound
  | PathExists
  | InvalidBranchMode
  | BranchAlreadyCheckedOut
  | UncommittedChanges
  | CannotDeleteMain
  | BackendFailure
deriving Repr, DecidableEq

/-- Modelled from the spec: the backend status computation
(`get_worktree_status`, Rust side, absent from the sources).  Spec §4.2:
"`is_clean` is the logical AND of all four counts being zero — never
independently settable"; the record is built from the four counts alone. -/
def mkWorktreeStatus (modified staged untracked conflicted : Nat) : WorktreeStatus :=
  { is_clean := modified == 0 && staged == 0 && untracked == 0 && conflicted == 0
    modified := modified
    staged := staged
    untracked := untracked
    conflicted := conflicted }

/-- Modelled from the spec: the backend commit-history pager
(`get_commit_history`, Rust side, absent from the sources).  Spec §4.3:
returns up to `limit` commits from HEAD's ancestry newest-first, skipping
the first `offset`; `history` is the full HEAD ancestry newest-first. -/
def get_commit_history (history : List CommitInfo) (limit offset : Nat) : List CommitInfo :=
  (history.drop offset).take limit

/-- `COMMITS_PER_PAGE` from `App.svelte`. -/
def COMMITS_PER_PAGE : Nat := 10

/-- The commit-pagination state of `App.svelte`: the accumulated `commits`
array and the `hasMoreCommits` flag. -/
structure CommitPageState where
  commits : List CommitInfo
  hasMoreCommits : Bool
deriving Repr, DecidableEq

/-- `loadCommits(append)` from `App.svelte`: fetches one page at offset
`commits.length` (when appending) or `0`, stores it, and sets
`hasMoreCommits` to `result.length === COMMITS_PER_PAGE`. -/
def loadCommits (history : List CommitInfo) (st : CommitPageState) (append : Bool) :
    CommitPageState :=
  let offset := if append then st.commits.length else 0
  let result := get_commit_history history COMMITS_PER_PAGE offset
  { commits := if append then st.commits ++ result else result
    hasMoreCommits := result.length == COMMITS_PER_PAGE }

/-- `hasWorkingChanges` from `CommitList.svelte`:
`worktreeStatus && !worktreeStatus.is_clean` (falsy when status is null). -/
def hasWorkingChanges (worktreeStatus : Option WorktreeStatus) : Bool :=
  match worktreeStatus with
  | some st => !st.is_clean
  | none => false

/-- `workingChangeCount` from `CommitList.svelte`: sums `modified`,
`staged` and `untracked` (and nothing else); `0` when status is null. -/
def workingChangeCount (worktreeStatus : Option WorktreeStatus) : Nat :=
  match worktreeStatus with
  | some st => st.modified + st.staged + st.untracked
  | none => 0

/-- Backend view of a worktree for the lifecycle operations: its path, the
`is_main` flag and whether its working tree is dirty (any of the four status
counts nonzero). -/
structure BackendWorktree where
  path : String
  is_main : Bool
  dirty : Bool
deriving Repr, DecidableEq

/-- Modelled from the spec: `delete_worktree` (Rust side, absent from the
sources).  Spec §4.5: fails `WorktreeNotFound` if the path is unknown; the
main worktree must never be deletable (`CannotDeleteMain`); fails
`UncommittedChanges` if the worktree is dirty and `force=false`;
`force=true` proceeds regardless of dirtiness.  On success the worktree is
removed from the registry; on failure nothing is deleted. -/
def delete_worktree (reg : List BackendWorktree) (worktree_path : String) (force : Bool) :
    Except WtError (List BackendWorktree) :=
  match reg.find? (fun w => w.path == worktree_path) with
  | none => .error .WorktreeNotFound
  | some w =>
    if w.is_main then .error .CannotDeleteMain
    else if w.dirty && !force then .error .UncommittedChanges
    else .ok (reg.filter (fun v => v.path != worktree_path))

/-- Modelled from the spec: the branch-mode validation of `create_worktree`
(Rust side, absent from the sources).  Spec §4.5: "validates exactly one of
`new_branch`/`commit_ish` is meaningful (fails `InvalidBranchMode`
otherwise)". -/
def validate_branch_mode (opts : CreateWorktreeOptions) : Except WtError Unit :=
  match opts.new_branch, opts.commit_ish with
  | some _, none => .ok ()
  | none, some _ => .ok ()
  | _, _ => .error .InvalidBranchMode

/-- JavaScript's `String.prototype.trim`: strips whitespace from both ends
of the string. -/
def jsTrim (s : String) : String :=
  String.mk (((s.data.dropWhile Char.isWhitespace).reverse.dropWhile
    Char.isWhitespace).reverse)

/-- `BranchMode` from `CreateWorktreeDialog.svelte`:
`"new" | "existing" | "detached"`. -/
inductive BranchMode where
  | new
  | existing
  | detached
deriving Repr, DecidableEq

/-- `handleCreate` from `CreateWorktreeDialog.svelte`: validates the form
fields, then builds the `CreateWorktreeOptions` object passed to
`create_worktree`.  Returns `none` when a form guard rejects (empty path,
empty new-branch name in mode `"new"`, no branch selected in mode
`"existing"`), `some options` otherwise. -/
def handleCreate (branchMode : BranchMode) (path newBranchName selectedBranch commitIsh : String) :
    Option CreateWorktreeOptions :=
  if jsTrim path = "" then none
  else if branchMode = .new && jsTrim newBranchName = "" then none
  else if branchMode = .existing && selectedBranch = "" then none
  else some
    { path := jsTrim path
      new_branch := if branchMode = .new then some (jsTrim newBranchName) else none
      commit_ish :=
        match branchMode with
        | .existing => some selectedBranch
        | .detached => some (if jsTrim commitIsh = "" then "HEAD" else jsTrim commitIsh)
        | .new => none
      detach := branchMode = .detached }

/-- The delete-button guard of the worktree dropdown (`{#if !worktree.is_main}`
around the `delete-btn` button): the delete action is rendered exactly for
non-main worktrees. -/
def showDeleteButton (wt : Worktree) : Bool :=
  !wt.is_main

/-- The per-element update of `loadWorktreeStatus` in `App.svelte`:
`wt.path === worktreePath ? { ...wt, status } : wt`. -/
def updateWorktreeStatus (worktreePath : String) (status : WorktreeStatus)
    (wt : Worktree) : Worktree :=
  if wt.path = worktreePath then { wt with status := some status } else wt

/-- The array update of `loadWorktreeStatus` in `App.svelte`:
`worktrees = worktrees.map(wt => wt.path === worktreePath ? { ...wt, status } : wt)`. -/
def applyStatus (worktrees : List Worktree) (worktreePath : String)
    (status : WorktreeStatus) : List Worktree :=
  worktrees.map (updateWorktreeStatus worktreePath status)

/-- The `selectedWorktree` mirror update of `loadWorktreeStatus` in
`App.svelte`: `if (selectedWorktree?.path === worktreePath)
selectedWorktree = { ...selectedWorktree, status }`. -/
def applySelected (selected : Option Worktree) (worktreePath : String)
    (status : WorktreeStatus) : Option Worktree :=
  match selected with
  | some sw =>
    if sw.path = worktreePath then some { sw with status := some status } else some sw
  | none => none

/-- `loadWorktreeStatus` in `App.svelte`, with the asynchronous
`get_worktree_status` invocation abstracted as `fetch : String → Option
WorktreeStatus` (`none` = the invoke rejected).  The function wraps its body
in try/catch: on failure it only logs and leaves the state untouched. -/
def loadWorktreeStatusStep (fetch : String → Option WorktreeStatus)
    (worktrees : List Worktree) (worktreePath : String) : List Worktree :=
  match fetch worktreePath with
  | some status => applyStatus worktrees worktreePath status
  | none => worktrees

/-- `loadAllWorktreeStatuses` in `App.svelte`: issues one independent
(unawaited) `loadWorktreeStatus` per worktree path; each settles by applying
its own update to the shared `worktrees` array. -/
def loadAllWorktreeStatuses (fetch : String → Option WorktreeStatus)
    (worktrees : List Worktree) (paths : List String) : List Worktree :=
  paths.foldl (fun acc p => loadWorktreeStatusStep fetch acc p) worktrees

/-- The `force` argument computed by `handleDeleteWorktree` in `App.svelte`:
`const hasChanges = worktree.status && !worktree.status.is_clean`, passed as
`force: hasChanges`.  When `status` is null the JavaScript value is null
(falsy, never `true`); embedded as `false`. -/
def deleteForceArg (wt : Worktree) : Bool :=
  match wt.status with
  | some st => !st.is_clean
  | none => false

/-- All consecutive gaps in a (chronologically ordered) list of event
timestamps are shorter than the quiet window `w`: the whole list is one
burst. -/
def allWithin (w : Nat) : List Nat → Bool
  | [] => true
  | [_] => true
  | a :: b :: rest => decide (b - a < w) && allWithin w (b :: rest)

/-- Modelled from the spec: the watcher's debounce (Rust side, absent from
the sources).  Spec §4.6: events within a quiet window coalesce into a
single outward notification with no payload (`Unit`); the debounce is a
resettable delay, so a notification fires after an event exactly when no
further event arrives within the window. -/
def debounceNotifications (w : Nat) : List Nat → List Unit
  | [] => []
  | [_] => [()]
  | a :: b :: rest =>
    if b - a < w then debounceNotifications w (b :: rest)
    else () :: debounceNotifications w (b :: rest)

/-- C1: for every `WorktreeStatus` the backend produces, `is_clean` is true
iff `modified`, `staged`, `untracked` and `conflicted` are all zero; it is
derived from the four counts, never set independently. -/
theorem status_is_clean_iff_counts_zero (m s u c : Nat) :
    (mkWorktreeStatus m s u c).is_clean = true ↔ m = 0 ∧ s = 0 ∧ u = 0 ∧ c = 0 := by
  simp [mkWorktreeStatus, and_assoc]

/-- C2: `get_commit_history` returns fewer than `limit` commits exactly when
the requested window overruns the end of HEAD's ancestry; in that case no
commits remain beyond the returned page; and `loadCommits` sets
`hasMoreCommits` exactly when the returned length equals the page size. -/
theorem short_page_iff_history_end (history : List CommitInfo) (limit offset : Nat)
    (st : CommitPageState) (append : Bool) :
    ((get_commit_history history limit offset).length < limit ↔
      history.length - offset < limit) ∧
    ((get_commit_history history limit offset).length < limit →
      history.drop (offset + (get_commit_history history limit offset).length) = []) ∧
    ((loadCommits history st append).hasMoreCommits = true ↔
      (get_commit_history history COMMITS_PER_PAGE
        (if append then st.commits.length else 0)).length = COMMITS_PER_PAGE) := by
  refine ⟨?_, ?_, ?_⟩
  · simp only [get_commit_history, List.length_take, List.length_drop]
    omega
  · intro hlt
    rw [List.drop_eq_nil_iff]
    simp only [get_commit_history, List.length_take, List.length_drop] at hlt ⊢
    omega
  · simp [loadCommits]

/-- Witness for C2 at a concrete page request. -/
theorem short_page_iff_history_end_witness :
    ((get_commit_history [] 5 0).length < 5 ↔ ([] : List CommitInfo).length - 0 < 5) ∧
    ((get_commit_history [] 5 0).length < 5 →
      ([] : List CommitInfo).drop (0 + (get_commit_history [] 5 0).length) = []) ∧
    ((loadCommits [] ⟨[], true⟩ false).hasMoreCommits = true ↔
      (get_commit_history [] COMMITS_PER_PAGE
        (if false then (⟨[], true⟩ : CommitPageState).commits.length else 0)).length =
        COMMITS_PER_PAGE) :=
  short_page_iff_history_end [] 5 0 ⟨[], true⟩ false

/-- C3: deleting a known non-main worktree fails with `UncommittedChanges`
(touching nothing) when it is dirty and `force=false`; succeeds with
`force=true` regardless of dirtiness; succeeds with `force=false` when
clean. -/
theorem delete_force_semantics (reg : List BackendWorktree) (p : String)
    (w : BackendWorktree) (hfind : reg.find? (fun v => v.path == p) = some w)
    (hmain : w.is_main = false) :
    (w.dirty = true → delete_worktree reg p false = .error .UncommittedChanges) ∧
    (∃ reg2, delete_worktree reg p true = .ok reg2) ∧
    (w.dirty = false → ∃ reg2, delete_worktree reg p false = .ok reg2) := by
  unfold delete_worktree
  rw [hfind]
  simp only [hmain, Bool.false_eq_true, if_false]
  refine ⟨?_, ?_, ?_⟩
  · intro hd; simp [hd]
  · refine ⟨reg.filter (fun v => v.path != p), ?_⟩; simp
  · intro hd; refine ⟨reg.filter (fun v => v.path != p), ?_⟩; simp [hd]

/-- Witness for C3 on a two-entry registry with a dirty non-main worktree. -/
theorem delete_force_semantics_witness :
    ((⟨"/a", false, true⟩ : BackendWorktree).dirty = true →
      delete_worktree [⟨"/m", true, false⟩, ⟨"/a", false, true⟩] "/a" false =
        .error .UncommittedChanges) ∧
    (∃ reg2, delete_worktree [⟨"/m", true, false⟩, ⟨"/a", false, true⟩] "/a" true =
        .ok reg2) ∧
    ((⟨"/a", false, true⟩ : BackendWorktree).dirty = false →
      ∃ reg2, delete_worktree [⟨"/m", true, false⟩, ⟨"/a", false, true⟩] "/a" false =
        .ok reg2) :=
  delete_force_semantics [⟨"/m", true, false⟩, ⟨"/a", false, true⟩] "/a"
    ⟨"/a", false, true⟩ (by decide) rfl

/-- C10: the working-changes badge of `CommitList.svelte` sums only
`modified + staged + untracked`, while the presence flag uses `is_clean`
over all four counts; a status with only conflicts is shown with a count of
0 files. -/
theorem working_badge_omits_conflicted :
    (∀ st : WorktreeStatus,
      workingChangeCount (some st) = st.modified + st.staged + st.untracked) ∧
    ∃ st : WorktreeStatus, 0 < st.conflicted ∧ st.modified = 0 ∧ st.staged = 0 ∧
      st.untracked = 0 ∧ hasWorkingChanges (some st) = true ∧
      workingChangeCount (some st) = 0 :=
  ⟨fun _ => rfl, ⟨mkWorktreeStatus 0 0 0 1, by decide⟩⟩

/-- C4: `validate_branch_mode` accepts exactly the options with exactly one
of `new_branch`/`commit_ish` non-null, and every options object
`handleCreate` constructs passes it: mode `"new"` sets `new_branch` with
`commit_ish` null and `detach` false; modes `"existing"` and `"detached"`
set `commit_ish` with `new_branch` null; `detach` holds only in mode
`"detached"`, where `commit_ish` is always set. -/
theorem create_options_branch_mode (mode : BranchMode)
    (path newBranchName selectedBranch commitIsh : String)
    (opts : CreateWorktreeOptions)
    (h : handleCreate mode path newBranchName selectedBranch commitIsh = some opts) :
    (∀ o : CreateWorktreeOptions, validate_branch_mode o = .ok () ↔
      (o.new_branch.isSome ∧ o.commit_ish = none) ∨
      (o.new_branch = none ∧ o.commit_ish.isSome)) ∧
    validate_branch_mode opts = .ok () ∧
    (opts.new_branch.isSome ↔ mode = .new) ∧
    (opts.commit_ish.isSome ↔ (mode = .existing ∨ mode = .detached)) ∧
    (opts.detach = true ↔ mode = .detached) ∧
    (opts.detach = true → opts.commit_ish.isSome) := by
  have hval : ∀ o : CreateWorktreeOptions, validate_branch_mode o = .ok () ↔
      (o.new_branch.isSome ∧ o.commit_ish = none) ∨
      (o.new_branch = none ∧ o.commit_ish.isSome) := by
    intro o
    unfold validate_branch_mode
    rcases o with ⟨_, nb, ci, _⟩
    cases nb <;> cases ci <;> simp
  refine ⟨hval, ?_⟩
  unfold handleCreate at h
  split at h
  · exact absurd h (by simp)
  split at h
  · exact absurd h (by simp)
  split at h
  · exact absurd h (by simp)
  injection h with h
  subst h
  cases mode <;> simp [validate_branch_mode]

/-- Witness for C4 at a concrete `"new"`-mode dialog submission. -/
theorem create_options_branch_mode_witness :
    (∀ o : CreateWorktreeOptions, validate_branch_mode o = .ok () ↔
      (o.new_branch.isSome ∧ o.commit_ish = none) ∨
      (o.new_branch = none ∧ o.commit_ish.isSome)) ∧
    validate_branch_mode ⟨"/p", some "feat", none, false⟩ = .ok () ∧
    ((⟨"/p", some "feat", none, false⟩ : CreateWorktreeOptions).new_branch.isSome ↔
      BranchMode.new = .new) ∧
    ((⟨"/p", some "feat", none, false⟩ : CreateWorktreeOptions).commit_ish.isSome ↔
      (BranchMode.new = .existing ∨ BranchMode.new = .detached)) ∧
    ((⟨"/p", some "feat", none, false⟩ : CreateWorktreeOptions).detach = true ↔
      BranchMode.new = .detached) ∧
    ((⟨"/p", some "feat", none, false⟩ : CreateWorktreeOptions).detach = true →
      (⟨"/p", some "feat", none, false⟩ : CreateWorktreeOptions).commit_ish.isSome) :=
  create_options_branch_mode .new "/p" "feat" "" "" ⟨"/p", some "feat", none, false⟩
    (by decide)

/-- C5: `delete_worktree` on the worktree flagged `is_main` fails with
`CannotDeleteMain` for every value of `force`, and the dropdown renders the
delete button exactly for worktrees with `is_main = false`. -/
theorem main_never_deletable (reg : List BackendWorktree) (p : String)
    (w : BackendWorktree) (force : Bool)
    (hfind : reg.find? (fun v => v.path == p) = some w)
    (hmain : w.is_main = true) :
    delete_worktree reg p force = .error .CannotDeleteMain ∧
    (∀ wt : Worktree, showDeleteButton wt = true ↔ wt.is_main = false) := by
  constructor
  · unfold delete_worktree
    rw [hfind]
    simp [hmain]
  · intro wt
    simp [showDeleteButton]

/-- Witness for C5 on a registry whose sole worktree is the main one. -/
theorem main_never_deletable_witness :
    delete_worktree [⟨"/m", true, false⟩] "/m" true = .error .CannotDeleteMain ∧
    (∀ wt : Worktree, showDeleteButton wt = true ↔ wt.is_main = false) :=
  main_never_deletable [⟨"/m", true, false⟩] "/m" ⟨"/m", true, false⟩ true (by decide) rfl

/-- C6: applying a status-refresh result replaces the `status` field of
exactly the worktrees whose path matches and nothing else: the list keeps
its length, element `i` of the updated list is the update of element `i`,
the per-element update preserves `path`, `name`, `is_main`, `head` and
`last_commit_timestamp`, leaves non-matching records identical, and the
`selectedWorktree` mirror changes only when its path matches. -/
theorem load_status_frame (wts : List Worktree) (p : String) (st : WorktreeStatus)
    (i : Nat) (sel : Worktree) :
    (applyStatus wts p st).length = wts.length ∧
    (applyStatus wts p st)[i]? = (wts[i]?).map (updateWorktreeStatus p st) ∧
    (∀ wt : Worktree,
      (updateWorktreeStatus p st wt).path = wt.path ∧
      (updateWorktreeStatus p st wt).name = wt.name ∧
      (updateWorktreeStatus p st wt).is_main = wt.is_main ∧
      (updateWorktreeStatus p st wt).head = wt.head ∧
      (updateWorktreeStatus p st wt).last_commit_timestamp = wt.last_commit_timestamp) ∧
    (∀ wt : Worktree, wt.path ≠ p → updateWorktreeStatus p st wt = wt) ∧
    (∀ wt : Worktree, wt.path = p →
      updateWorktreeStatus p st wt = { wt with status := some st }) ∧
    (sel.path = p → applySelected (some sel) p st = some { sel with status := some st }) ∧
    (sel.path ≠ p → applySelected (some sel) p st = some sel) := by
  refine ⟨?_, ?_, ?_, ?_, ?_, ?_, ?_⟩
  · simp [applyStatus]
  · simp [applyStatus]
  · intro wt
    by_cases hp : wt.path = p <;> simp [updateWorktreeStatus, hp]
  · intro wt hp
    simp [updateWorktreeStatus, hp]
  · intro wt hp
    simp [updateWorktreeStatus, hp]
  · intro hp
    simp [applySelected, hp]
  · intro hp
    simp [applySelected, hp]

/-- Witness for C6 on a concrete two-worktree list. -/
theorem load_status_frame_witness :
    ((applyStatus [⟨"/m", "m", true, ⟨some "main", "s1", "c1"⟩, none, 5⟩,
        ⟨"/a", "a", false, ⟨none, "s2", "c2"⟩, none, 6⟩] "/a"
        (mkWorktreeStatus 1 0 0 0)).length =
      ([⟨"/m", "m", true, ⟨some "main", "s1", "c1"⟩, none, 5⟩,
        ⟨"/a", "a", false, ⟨none, "s2", "c2"⟩, none, 6⟩] : List Worktree).length) ∧
    ((applyStatus [⟨"/m", "m", true, ⟨some "main", "s1", "c1"⟩, none, 5⟩,
        ⟨"/a", "a", false, ⟨none, "s2", "c2"⟩, none, 6⟩] "/a"
        (mkWorktreeStatus 1 0 0 0))[0]? =
      (([⟨"/m", "m", true, ⟨some "main", "s1", "c1"⟩, none, 5⟩,
        ⟨"/a", "a", false, ⟨none, "s2", "c2"⟩, none, 6⟩] : List Worktree)[0]?).map
        (updateWorktreeStatus "/a" (mkWorktreeStatus 1 0 0 0))) ∧
    (∀ wt : Worktree,
      (updateWorktreeStatus "/a" (mkWorktreeStatus 1 0 0 0) wt).path = wt.path ∧
      (updateWorktreeStatus "/a" (mkWorktreeStatus 1 0 0 0) wt).name = wt.name ∧
      (updateWorktreeStatus "/a" (mkWorktreeStatus 1 0 0 0) wt).is_main = wt.is_main ∧
      (updateWorktreeStatus "/a" (mkWorktreeStatus 1 0 0 0) wt).head = wt.head ∧
      (updateWorktreeStatus "/a" (mkWorktreeStatus 1 0 0 0) wt).last_commit_timestamp =
        wt.last_commit_timestamp) ∧
    (∀ wt : Worktree, wt.path ≠ "/a" →
      updateWorktreeStatus "/a" (mkWorktreeStatus 1 0 0 0) wt = wt) ∧
    (∀ wt : Worktree, wt.path = "/a" →
      updateWorktreeStatus "/a" (mkWorktreeStatus 1 0 0 0) wt =
        { wt with status := some (mkWorktreeStatus 1 0 0 0) }) ∧
    ((⟨"/a", "a", false, ⟨none, "s2", "c2"⟩, none, 6⟩ : Worktree).path = "/a" →
      applySelected (some ⟨"/a", "a", false, ⟨none, "s2", "c2"⟩, none, 6⟩) "/a"
          (mkWorktreeStatus 1 0 0 0) =
        some { (⟨"/a", "a", false, ⟨none, "s2", "c2"⟩, none, 6⟩ : Worktree) with
          status := some (mkWorktreeStatus 1 0 0 0) }) ∧
    ((⟨"/a", "a", false, ⟨none, "s2", "c2"⟩, none, 6⟩ : Worktree).path ≠ "/a" →
      applySelected (some ⟨"/a", "a", false, ⟨none, "s2", "c2"⟩, none, 6⟩) "/a"
          (mkWorktreeStatus 1 0 0 0) =
        some ⟨"/a", "a", false, ⟨none, "s2", "c2"⟩, none, 6⟩) :=
  load_status_frame
    [⟨"/m", "m", true, ⟨some "main", "s1", "c1"⟩, none, 5⟩,
     ⟨"/a", "a", false, ⟨none, "s2", "c2"⟩, none, 6⟩]
    "/a" (mkWorktreeStatus 1 0 0 0) 0
    ⟨"/a", "a", false, ⟨none, "s2", "c2"⟩, none, 6⟩

/-- C9: when a worktree's status was never loaded (`status = null`),
`handleDeleteWorktree` computes a falsy `hasChanges`, so `delete_worktree`
is invoked with a force argument that is not true; if that worktree is in
fact dirty, the backend's `force=false` path rejects with
`UncommittedChanges`. -/
theorem null_status_never_forced (wt : Worktree) (h : wt.status = none)
    (reg : List BackendWorktree) (bw : BackendWorktree)
    (hfind : reg.find? (fun v => v.path == wt.path) = some bw)
    (hmain : bw.is_main = false) (hdirty : bw.dirty = true) :
    deleteForceArg wt = false ∧
    delete_worktree reg wt.path (deleteForceArg wt) = .error .UncommittedChanges := by
  have hf : deleteForceArg wt = false := by
    unfold deleteForceArg
    rw [h]
  refine ⟨hf, ?_⟩
  rw [hf]
  unfold delete_worktree
  rw [hfind]
  simp [hmain, hdirty]

/-- Witness for C9: a dirty worktree whose status the UI never observed. -/
theorem null_status_never_forced_witness :
    deleteForceArg ⟨"/a", "a", false, ⟨none, "s", "c"⟩, none, 0⟩ = false ∧
    delete_worktree [⟨"/a", false, true⟩]
        (⟨"/a", "a", false, ⟨none, "s", "c"⟩, none, 0⟩ : Worktree).path
        (deleteForceArg ⟨"/a", "a", false, ⟨none, "s", "c"⟩, none, 0⟩) =
      .error .UncommittedChanges :=
  null_status_never_forced ⟨"/a", "a", false, ⟨none, "s", "c"⟩, none, 0⟩ rfl
    [⟨"/a", false, true⟩] ⟨"/a", false, true⟩ (by decide) rfl rfl

/-- A single status update never changes the sequence of worktree paths. -/
theorem step_map_path (fetch : String → Option WorktreeStatus)
    (wts : List Worktree) (p : String) :
    (loadWorktreeStatusStep fetch wts p).map Worktree.path = wts.map Worktree.path := by
  unfold loadWorktreeStatusStep
  cases fetch p with
  | none => rfl
  | some st =>
    simp only [applyStatus, List.map_map]
    apply List.map_congr_left
    intro wt _
    by_cases hp : wt.path = p <;> simp [updateWorktreeStatus, hp]

/-- Iterating status updates never changes the sequence of worktree paths. -/
theorem loadAll_map_path (fetch : String → Option WorktreeStatus)
    (paths : List String) :
    ∀ wts : List Worktree,
      (loadAllWorktreeStatuses fetch wts paths).map Worktree.path =
        wts.map Worktree.path := by
  induction paths with
  | nil => intro wts; rfl
  | cons q qs ih =>
    intro wts
    unfold loadAllWorktreeStatuses
    simp only [List.foldl_cons]
    exact (ih (loadWorktreeStatusStep fetch wts q)).trans (step_map_path fetch wts q)

/-- Dropping the paths whose fetch fails does not change the outcome of the
status backfill. -/
theorem loadAll_skip_failed (fetch : String → Option WorktreeStatus)
    (p : String) (hfail : fetch p = none) (paths : List String) :
    ∀ wts : List Worktree,
      loadAllWorktreeStatuses fetch wts paths =
        loadAllWorktreeStatuses fetch wts (paths.filter (fun q => q != p)) := by
  induction paths with
  | nil => intro wts; rfl
  | cons q qs ih =>
    intro wts
    by_cases hq : q = p
    · have hstep : loadWorktreeStatusStep fetch wts q = wts := by
        unfold loadWorktreeStatusStep
        rw [hq, hfail]
      have hfilter : (q :: qs).filter (fun r => r != p) = qs.filter (fun r => r != p) := by
        simp [List.filter_cons, hq]
      rw [hfilter]
      unfold loadAllWorktreeStatuses
      simp only [List.foldl_cons]
      rw [hstep]
      exact ih wts
    · have hfilter : (q :: qs).filter (fun r => r != p) =
          q :: qs.filter (fun r => r != p) := by
        simp [List.filter_cons, hq]
      rw [hfilter]
      unfold loadAllWorktreeStatuses
      simp only [List.foldl_cons]
      exact ih (loadWorktreeStatusStep fetch wts q)

/-- C7: a failure while fetching one worktree's status leaves everything
else usable: the failing `loadWorktreeStatus` call leaves the state exactly
as it was, the per-worktree requests are independent (the run is the same
as if the failing path had never been requested), and the base registry
list — the sequence of worktree paths — survives any combination of
failures. -/
theorem status_failure_isolated (fetch : String → Option WorktreeStatus)
    (wts : List Worktree) (paths : List String) (p : String)
    (hfail : fetch p = none) :
    loadWorktreeStatusStep fetch wts p = wts ∧
    loadAllWorktreeStatuses fetch wts paths =
      loadAllWorktreeStatuses fetch wts (paths.filter (fun q => q != p)) ∧
    (loadAllWorktreeStatuses fetch wts paths).map Worktree.path =
      wts.map Worktree.path := by
  refine ⟨?_, loadAll_skip_failed fetch p hfail paths wts, loadAll_map_path fetch paths wts⟩
  unfold loadWorktreeStatusStep
  rw [hfail]

/-- Witness for C7: a fetch that rejects for every path. -/
theorem status_failure_isolated_witness :
    loadWorktreeStatusStep (fun _ => none)
        [⟨"/a", "a", false, ⟨none, "s", "c"⟩, none, 0⟩] "/a" =
      [⟨"/a", "a", false, ⟨none, "s", "c"⟩, none, 0⟩] ∧
    loadAllWorktreeStatuses (fun _ => none)
        [⟨"/a", "a", false, ⟨none, "s", "c"⟩, none, 0⟩] ["/a"] =
      loadAllWorktreeStatuses (fun _ => none)
        [⟨"/a", "a", false, ⟨none, "s", "c"⟩, none, 0⟩]
        (["/a"].filter (fun q => q != "/a")) ∧
    (loadAllWorktreeStatuses (fun _ => none)
        [⟨"/a", "a", false, ⟨none, "s", "c"⟩, none, 0⟩] ["/a"]).map Worktree.path =
      ([⟨"/a", "a", false, ⟨none, "s", "c"⟩, none, 0⟩] : List Worktree).map Worktree.path :=
  status_failure_isolated (fun _ => none)
    [⟨"/a", "a", false, ⟨none, "s", "c"⟩, none, 0⟩] ["/a"] "/a" rfl

/-- A nonempty burst whose consecutive gaps all lie inside the quiet window
coalesces to exactly one notification. -/
theorem debounce_single_burst (w : Nat) :
    ∀ ts : List Nat, ts ≠ [] → allWithin w ts = true →
      debounceNotifications w ts = [()] := by
  intro ts
  induction ts with
  | nil => intro h; exact absurd rfl h
  | cons a rest ih =>
    intro _ hall
    cases rest with
    | nil => rfl
    | cons b rest2 =>
      have hsplit : (decide (b - a < w) && allWithin w (b :: rest2)) = true := hall
      rw [Bool.and_eq_true] at hsplit
      obtain ⟨h1, h2⟩ := hsplit
      show (if b - a < w then debounceNotifications w (b :: rest2)
        else () :: debounceNotifications w (b :: rest2)) = [()]
      rw [if_pos (of_decide_eq_true h1)]
      exact ih (by simp) h2

/-- Events separated from a preceding burst by at least the quiet window
start a fresh notification cycle: the burst contributes exactly one
notification and the remainder is debounced on its own. -/
theorem debounce_burst_boundary (w u : Nat) (us : List Nat) :
    ∀ ts : List Nat, ts ≠ [] → allWithin w ts = true →
      (∀ a, ts.getLast? = some a → w + a ≤ u) →
      debounceNotifications w (ts ++ u :: us) =
        () :: debounceNotifications w (u :: us) := by
  intro ts
  induction ts with
  | nil => intro h; exact absurd rfl h
  | cons a rest ih =>
    intro _ hall hgap
    cases rest with
    | nil =>
      have ha : w + a ≤ u := hgap a rfl
      show (if u - a < w then debounceNotifications w (u :: us)
        else () :: debounceNotifications w (u :: us)) = () :: debounceNotifications w (u :: us)
      rw [if_neg (by omega)]
    | cons b rest2 =>
      have hsplit : (decide (b - a < w) && allWithin w (b :: rest2)) = true := hall
      rw [Bool.and_eq_true] at hsplit
      obtain ⟨h1, h2⟩ := hsplit
      have hgap2 : ∀ x, (b :: rest2).getLast? = some x → w + x ≤ u := by
        intro x hx
        exact hgap x (by rw [List.getLast?_cons_cons]; exact hx)
      show (if b - a < w then debounceNotifications w ((b :: rest2) ++ u :: us)
        else () :: debounceNotifications w ((b :: rest2) ++ u :: us)) =
        () :: debounceNotifications w (u :: us)
      rw [if_pos (of_decide_eq_true h1)]
      exact ih (by simp) h2 hgap2

/-- C8: a burst of filesystem events whose gaps all fit inside the quiet
window yields exactly one notification; a write at least a full quiet
window after the burst yields a second; and every notification carries no
payload. -/
theorem watcher_coalesces_bursts (w u : Nat) (ts us : List Nat)
    (hne : ts ≠ []) (hburst : allWithin w ts = true)
    (hgap : ts.getLast?.all (fun a => decide (w + a ≤ u)) = true) :
    debounceNotifications w ts = [()] ∧
    debounceNotifications w (ts ++ u :: us) =
      () :: debounceNotifications w (u :: us) ∧
    (allWithin w (u :: us) = true →
      debounceNotifications w (ts ++ u :: us) = [(), ()]) ∧
    (∀ x ∈ debounceNotifications w ts, x = ()) := by
  have hgap' : ∀ a, ts.getLast? = some a → w + a ≤ u := by
    intro a ha
    rw [ha] at hgap
    simpa [Option.all] using hgap
  refine ⟨debounce_single_burst w ts hne hburst,
    debounce_burst_boundary w u us ts hne hburst hgap', ?_, ?_⟩
  · intro h2
    rw [debounce_burst_boundary w u us ts hne hburst hgap',
      debounce_single_burst w (u :: us) (by simp) h2]
  · intro x _
    rfl

/-- Witness for C8: 50 rapid writes at one-tick spacing inside a 300-tick
quiet window give one notification; a write at tick 1000 gives a second. -/
theorem watcher_coalesces_bursts_witness :
    debounceNotifications 300 (List.range 50) = [()] ∧
    debounceNotifications 300 (List.range 50 ++ 1000 :: []) =
      () :: debounceNotifications 300 (1000 :: []) ∧
    (allWithin 300 (1000 :: []) = true →
      debounceNotifications 300 (List.range 50 ++ 1000 :: []) = [(), ()]) ∧
    (∀ x ∈ debounceNotifications 300 (List.range 50), x = ()) :=
  watcher_coalesces_bursts 300 1000 (List.range 50) [] (by decide) (by decide) (by decide)

end Woodeye
